import Mathlib

/-!
Verification of the `wysiwyg-html-editor` facade (`src/Editor.js`), a thin
wrapper around the Quill rich-text widget.  The wrapper is glue code: it
constructs the widget, forwards method calls, re-emits the widget's change
event through its own emitter, and installs a global link-sanitize override.

The embedding models each facet of the code that the properties concern:
  * JS strings are modelled as `List Char`; JS values relevant to truthiness
    tests (`!index`, `html || ""`, `index !== 0`) as the inductive `JSVal`;
  * the editable region's DOM content as a tree of `HtmlNode`s, with
    `innerHTML` serialization as `renderList`;
  * the widget's flat text document (for `deleteText` / `getLength`) as a
    `List Char`;
  * the facade's event emitter as an ordered list of registered handlers;
  * the widget library's shared link-format class as a record holding its
    `sanitize` function.
-/

namespace WysiwygEditor

/-- The characters of the literal `"http"`.  `url.indexOf("http") === 0` in
the source is exactly the test that this list is a prefix of the url. -/
def httpChars : List Char := ['h', 't', 't', 'p']

/-- The characters of the literal `"https://"` prepended by the override. -/
def httpsSchemeChars : List Char := ['h', 't', 't', 'p', 's', ':', '/', '/']

namespace Link

/-- The function `Link.sanitize` installed by the `Editor` constructor
(`src/Editor.js:32-40`): if the url does not start with `"http"` the string
`"https://"` is prepended, otherwise the url is returned unchanged. -/
def sanitize (url : List Char) : List Char :=
  let urlStartsWithHttp := httpChars.isPrefixOf url
  if urlStartsWithHttp then url else httpsSchemeChars ++ url

end Link

/-- JavaScript values as far as the facade's truthiness / strict-equality
tests observe them: `undefined`, `null`, numbers (with `NaN` separate),
strings, booleans. -/
inductive JSVal where
  | undef
  | nullV
  | num (n : Int)
  | nan
  | str (s : List Char)
  | boolV (b : Bool)
  deriving DecidableEq, Repr

/-- JavaScript truthiness: `undefined`, `null`, `0`, `NaN`, `""` and `false`
are falsy, everything else in `JSVal` is truthy. -/
def jsTruthy : JSVal → Bool
  | .undef => false
  | .nullV => false
  | .num n => n != 0
  | .nan => false
  | .str s => s != []
  | .boolV b => b

/-- JavaScript strict equality with the literal `0` (`index === 0`): true
exactly for the number `0` (`NaN === 0` is false). -/
def jsStrictEqZero : JSVal → Bool
  | .num n => n == 0
  | _ => false

/-- A DOM node of the editable region: an element with a tag name, ordinary
attributes, an inline-style declaration list (the reflected `style`
attribute, ordered key/value pairs) and children, or a text node. -/
inductive HtmlNode where
  | elem (tag : List Char) (attrs : List (List Char × List Char))
      (style : List (List Char × List Char)) (children : List HtmlNode)
  | text (s : List Char)

/-- Characters of the literal `"margin"`. -/
def marginKey : List Char := ['m', 'a', 'r', 'g', 'i', 'n']

/-- Characters of the literal `"padding"`. -/
def paddingKey : List Char := ['p', 'a', 'd', 'd', 'i', 'n', 'g']

/-- Characters of `"0px"`, the serialized value of a style length set to
the number `0` (as in `paragraph.style.margin = 0`). -/
def zeroPx : List Char := ['0', 'p', 'x']

/-- Characters of the tag name `"p"`. -/
def pTag : List Char := ['p']

/-- Setting one property of a `CSSStyleDeclaration`
(`paragraph.style.margin = 0`): if the property is already declared its
declared value is updated in place, otherwise the declaration is appended. -/
def setStyleDecl (s : List (List Char × List Char)) (k v : List Char) :
    List (List Char × List Char) :=
  if s.any (fun p => p.1 = k) then
    s.map (fun p => if p.1 = k then (k, v) else p)
  else
    s ++ [(k, v)]

/-- The two style mutations the loop body of `getHTML` applies to one
paragraph element (`paragraph.style.margin = 0; paragraph.style.padding = 0`). -/
def zeroMarginPadding (s : List (List Char × List Char)) :
    List (List Char × List Char) :=
  setStyleDecl (setStyleDecl s marginKey zeroPx) paddingKey zeroPx

mutual

/-- The effect of `getHTML`'s loop on one node: `querySelectorAll("p")`
selects every descendant `<p>` element, so every `p`-tagged element at any
depth gets its margin and padding set to zero; other nodes are untouched
apart from the recursion into children. -/
def normNode : HtmlNode → HtmlNode
  | .text s => .text s
  | .elem tag attrs style children =>
      .elem tag attrs (if tag = pTag then zeroMarginPadding style else style)
        (normList children)

/-- The map of `normNode` over a sibling list. -/
def normList : List HtmlNode → List HtmlNode
  | [] => []
  | c :: cs => normNode c :: normList cs

end

/-- Serialization of a style declaration list into the text of a `style`
attribute value. -/
def renderStyle : List (List Char × List Char) → List Char
  | [] => []
  | (k, v) :: rest =>
      k ++ [':', ' '] ++ v ++ [';'] ++
        (if rest = [] then [] else [' ']) ++ renderStyle rest

/-- Serialization of an ordinary attribute list. -/
def renderAttrs : List (List Char × List Char) → List Char
  | [] => []
  | (k, v) :: rest => [' '] ++ k ++ ['=', '"'] ++ v ++ ['"'] ++ renderAttrs rest

mutual

/-- Serialization of one node, as `innerHTML` produces it. -/
def renderNode : HtmlNode → List Char
  | .text s => s
  | .elem tag attrs style children =>
      ['<'] ++ tag ++ renderAttrs attrs ++
        (if style = [] then []
         else [' ', 's', 't', 'y', 'l', 'e', '=', '"'] ++ renderStyle style ++ ['"']) ++
        ['>'] ++ renderList children ++ ['<', '/'] ++ tag ++ ['>']

/-- Serialization of a sibling list, as `innerHTML` produces it. -/
def renderList : List HtmlNode → List Char
  | [] => []
  | c :: cs => renderNode c ++ renderList cs

end

/-- The DOM facet of the widget the facade observes through
`targetEl.querySelector(".ql-editor")`: the child nodes of the editable
`.ql-editor` element when that element can be located, `none` otherwise. -/
structure DomState where
  region : Option (List HtmlNode)

namespace Editor

/-- The body of `Editor.prototype.getHTML` run against the DOM facet, returned together
with the DOM state after the call.  Mirrors the source: the `.ql-editor`
lookup failing throws; otherwise a fresh detached `tmpDiv` receives a copy
of the region's content (`tmpDiv.innerHTML = editorContentDiv.innerHTML`),
the margin/padding zeroing loop mutates only that detached copy, and its
serialization is returned.  The editor's own DOM is never written. -/
def getHTMLRun (st : DomState) : Except (List Char) (List Char) × DomState :=
  match st.region with
  | none =>
      (Except.error
        ['C', 'o', 'u', 'l', 'd', 'n', '\'', 't', ' ', 'f', 'i', 'n', 'd', ' ',
         'e', 'd', 'i', 't', 'o', 'r', ' ', 'c', 'o', 'n', 't', 'e', 'n', 't', 's'],
       st)
  | some nodes =>
      let tmpDiv := nodes
      let tmpDivMutated := normList tmpDiv
      (Except.ok (renderList tmpDivMutated), st)

/-- The value `Editor.prototype.getHTML` returns (or the error it throws). -/
def getHTML (st : DomState) : Except (List Char) (List Char) :=
  (getHTMLRun st).1

/-- The coercion `html = html || ""` in `Editor.prototype.setHTML`: the argument actually
handed to `quill.pasteHTML` — the argument itself when truthy, the empty
string otherwise (in particular for `undefined` and `null`). -/
def setHTMLArg (html : JSVal) : JSVal :=
  if jsTruthy html then html else .str []

/-- Modelled from the spec: the call `quill.pasteHTML(html)` (the one-argument form
used by `setHTML`) "replaces the full content of the editable region with
the given HTML fragment".  The fragment is given here already parsed into
nodes; the parse of the empty string is `[]`. -/
def setHTMLNodes (st : DomState) (parsedHtml : List HtmlNode) : DomState :=
  { region := st.region.map fun _ => parsedHtml }

/-- Index-defaulting logic shared verbatim by `insertHTML` and `insertText`
(`if (!index && index !== 0) { index = this.getLength(); }`): the index the
underlying widget actually receives, given the argument and the value
`this.getLength()` would return. -/
def resolveInsertIndex (index : JSVal) (len : Int) : JSVal :=
  if !jsTruthy index && !jsStrictEqZero index then .num len else index

/-- The index `Editor.prototype.insertHTML` passes to `quill.pasteHTML`. -/
def insertHTMLIndex (index : JSVal) (len : Int) : JSVal :=
  resolveInsertIndex index len

/-- The index `Editor.prototype.insertText` passes to `quill.insertText`. -/
def insertTextIndex (index : JSVal) (len : Int) : JSVal :=
  resolveInsertIndex index len

/-- Modelled from the spec: the widget's flat text document, its "character
length of the content" being what `quill.getLength()` reports.
`Editor.prototype.getLength` is a direct delegation. -/
def getLength (doc : List Char) : Nat := doc.length

/-- Modelled from the spec: `quill.deleteText(index, length)` "removes
`length` characters starting at `index`".  `Editor.prototype.deleteText` is
a direct delegation. -/
def deleteText (doc : List Char) (index len : Nat) : List Char :=
  doc.take index ++ doc.drop (index + len)

end Editor

/-- The facade's event bus for its single forwarded event: the handlers
currently registered for it, in subscription order.  Handlers are
identified by number. -/
structure EmitterState where
  handlers : List Nat

namespace Editor

/-- The method `Editor.prototype.on` for the forwarded event: appends the handler
(EventEmitter subscription order). -/
def onEvent (em : EmitterState) (h : Nat) : EmitterState :=
  { handlers := em.handlers ++ [h] }

/-- Modelled from the spec: one change notification from the widget runs
the constructor-installed listener, which calls `emitter.emit` with no
payload; the emitter dispatches synchronously to all current subscribers in
subscription order.  The result lists the handler invocations of the batch,
each paired with the argument list it receives. -/
def dispatchTextChange (em : EmitterState) : List (Nat × List JSVal) :=
  em.handlers.map fun h => (h, [])

end Editor

/-- The widget library's shared link-format class (`Quill.import`
returns the one class object owned by the library). -/
structure LinkFormatClass where
  sanitize : List Char → List Char

/-- Process-global state of the widget library: the shared link-format
class every widget instance of the library resolves `sanitize` on. -/
structure QuillLib where
  linkClass : LinkFormatClass

/-- Per-instance state of one widget, whether or not it was created through
this facade.  It has no link-sanitize field of its own: `sanitize` is a
class-level function. -/
structure WidgetInstance where
  dom : DomState
  textDoc : List Char

/-- The link-sanitize function a given widget instance applies: resolved on
the library's shared class, never on the instance. -/
def instanceLinkSanitize (lib : QuillLib) (_inst : WidgetInstance)
    (url : List Char) : List Char :=
  lib.linkClass.sanitize url

namespace Editor

/-- The `Editor` constructor's effect on library-global and facade state:
it creates the widget on the target element, creates a fresh emitter, wires
the widget's change event to the emitter, and overwrites `Link.sanitize` on
the library's shared link-format class with the prepending function.  The
first component is the library-global state after construction. -/
def construct (lib : QuillLib) (targetWidget : WidgetInstance) :
    QuillLib × WidgetInstance × EmitterState :=
  ({ lib with linkClass := { lib.linkClass with sanitize := Link.sanitize } },
   targetWidget,
   { handlers := [] })

end Editor

/-! ### Properties of the style-declaration update -/

theorem mem_setStyleDecl_self (s : List (List Char × List Char)) (k v : List Char) :
    (k, v) ∈ setStyleDecl s k v := by
  unfold setStyleDecl
  split
  · rename_i h
    rw [List.any_eq_true] at h
    obtain ⟨p, hp, hpk⟩ := h
    rw [decide_eq_true_iff] at hpk
    exact List.mem_map.mpr ⟨p, hp, by simp [hpk]⟩
  · simp

theorem mem_setStyleDecl_other (s : List (List Char × List Char))
    (k v k' v' : List Char) (hne : k' ≠ k) (h : (k, v) ∈ s) :
    (k, v) ∈ setStyleDecl s k' v' := by
  unfold setStyleDecl
  split
  · exact List.mem_map.mpr ⟨(k, v), h, by simp [hne.symm]⟩
  · exact List.mem_append_left _ h

theorem setStyleDecl_key_normal (s : List (List Char × List Char)) (k v : List Char) :
    ∀ q ∈ setStyleDecl s k v, q.1 = k → q = (k, v) := by
  unfold setStyleDecl
  split
  · intro q hq hqk
    obtain ⟨p, hps, hfp⟩ := List.mem_map.mp hq
    by_cases hpk : p.1 = k
    · simp [hpk] at hfp
      exact hfp.symm
    · simp [hpk] at hfp
      refine absurd ?_ hpk
      rw [hfp]
      exact hqk
  · rename_i hnone
    intro q hq hqk
    rcases List.mem_append.mp hq with hmem | hmem
    · exact absurd (List.any_eq_true.mpr ⟨q, hmem, decide_eq_true hqk⟩) hnone
    · simpa using hmem

theorem setStyleDecl_key_present (s : List (List Char × List Char)) (k v : List Char) :
    ∃ q ∈ setStyleDecl s k v, q.1 = k :=
  ⟨(k, v), mem_setStyleDecl_self s k v, rfl⟩

theorem setStyleDecl_key_normal_other (s : List (List Char × List Char))
    (k v k' v' : List Char) (hne : k' ≠ k)
    (h : ∀ q ∈ s, q.1 = k → q = (k, v)) :
    ∀ q ∈ setStyleDecl s k' v', q.1 = k → q = (k, v) := by
  unfold setStyleDecl
  split
  · intro q hq hqk
    obtain ⟨p, hp, hfp⟩ := List.mem_map.mp hq
    by_cases hpk : p.1 = k'
    · simp [hpk] at hfp
      rw [← hfp] at hqk
      exact absurd hqk hne
    · simp [hpk] at hfp
      exact h q (hfp ▸ hp) hqk
  · intro q hq hqk
    rcases List.mem_append.mp hq with hmem | hmem
    · exact h q hmem hqk
    · rw [List.mem_singleton] at hmem
      rw [hmem] at hqk
      exact absurd hqk hne

theorem setStyleDecl_key_present_other (s : List (List Char × List Char))
    (k k' v' : List Char) (hne : k' ≠ k)
    (h : ∃ q ∈ s, q.1 = k) :
    ∃ q ∈ setStyleDecl s k' v', q.1 = k := by
  obtain ⟨q, hq, hqk⟩ := h
  unfold setStyleDecl
  split
  · refine ⟨q, List.mem_map.mpr ⟨q, hq, ?_⟩, hqk⟩
    simp [hqk, hne.symm]
  · exact ⟨q, List.mem_append_left _ hq, hqk⟩

theorem setStyleDecl_fixed (s : List (List Char × List Char)) (k v : List Char)
    (hpresent : ∃ q ∈ s, q.1 = k)
    (hnormal : ∀ q ∈ s, q.1 = k → q = (k, v)) :
    setStyleDecl s k v = s := by
  unfold setStyleDecl
  obtain ⟨q, hq, hqk⟩ := hpresent
  rw [if_pos (List.any_eq_true.mpr ⟨q, hq, decide_eq_true hqk⟩)]
  have : ∀ p ∈ s, (if p.1 = k then (k, v) else p) = p := by
    intro p hp
    by_cases hpk : p.1 = k
    · rw [if_pos hpk, ← hnormal p hp hpk]
    · rw [if_neg hpk]
  rw [List.map_congr_left this]
  simp

theorem marginKey_ne_paddingKey : marginKey ≠ paddingKey := by decide

theorem mem_zeroMarginPadding_margin (s : List (List Char × List Char)) :
    (marginKey, zeroPx) ∈ zeroMarginPadding s :=
  mem_setStyleDecl_other _ _ _ _ _ (Ne.symm marginKey_ne_paddingKey)
    (mem_setStyleDecl_self s marginKey zeroPx)

theorem mem_zeroMarginPadding_padding (s : List (List Char × List Char)) :
    (paddingKey, zeroPx) ∈ zeroMarginPadding s :=
  mem_setStyleDecl_self _ paddingKey zeroPx

theorem zeroMarginPadding_idem (s : List (List Char × List Char)) :
    zeroMarginPadding (zeroMarginPadding s) = zeroMarginPadding s := by
  unfold zeroMarginPadding
  have hmargin :
      setStyleDecl (setStyleDecl (setStyleDecl s marginKey zeroPx) paddingKey zeroPx)
        marginKey zeroPx =
      setStyleDecl (setStyleDecl s marginKey zeroPx) paddingKey zeroPx :=
    setStyleDecl_fixed _ _ _
      (setStyleDecl_key_present_other _ _ _ _ (Ne.symm marginKey_ne_paddingKey)
        (setStyleDecl_key_present s marginKey zeroPx))
      (setStyleDecl_key_normal_other _ _ _ _ _ (Ne.symm marginKey_ne_paddingKey)
        (setStyleDecl_key_normal s marginKey zeroPx))
  rw [hmargin]
  exact setStyleDecl_fixed _ _ _
    (setStyleDecl_key_present _ paddingKey zeroPx)
    (setStyleDecl_key_normal _ paddingKey zeroPx)

/-! ### Normalization is paragraph-zeroing and is idempotent -/

mutual

/-- Check that every `<p>` element of a node's subtree carries explicit
inline declarations of zero margin and zero padding. -/
def zeroedNode : HtmlNode → Bool
  | .text _ => true
  | .elem tag _ style children =>
      (if tag = pTag then
        decide ((marginKey, zeroPx) ∈ style) && decide ((paddingKey, zeroPx) ∈ style)
      else true) && zeroedList children

/-- Check `zeroedNode` across a sibling list. -/
def zeroedList : List HtmlNode → Bool
  | [] => true
  | c :: cs => zeroedNode c && zeroedList cs

end

mutual

theorem zeroedNode_normNode : ∀ n, zeroedNode (normNode n) = true
  | .text s => rfl
  | .elem tag attrs style children => by
      by_cases h : tag = pTag <;>
        simp [normNode, zeroedNode, zeroedList_normList children, h,
          mem_zeroMarginPadding_margin, mem_zeroMarginPadding_padding]

theorem zeroedList_normList : ∀ ns, zeroedList (normList ns) = true
  | [] => rfl
  | c :: cs => by
      simp [normList, zeroedList, zeroedNode_normNode c, zeroedList_normList cs]

end

mutual

theorem normNode_idem : ∀ n, normNode (normNode n) = normNode n
  | .text s => rfl
  | .elem tag attrs style children => by
      by_cases h : tag = pTag <;>
        simp [normNode, normList_idem children, h, zeroMarginPadding_idem]

theorem normList_idem : ∀ ns, normList (normList ns) = normList ns
  | [] => rfl
  | c :: cs => by
      simp [normList, normNode_idem c, normList_idem cs]

end

/-! ### The claims -/

theorem httpChars_prefix_of_https_append (url : List Char) :
    httpChars.isPrefixOf (httpsSchemeChars ++ url) = true := by
  simp [httpChars, httpsSchemeChars, List.isPrefixOf]

/-- C1: the installed link-format sanitize function returns a url that
already begins with the HTTP prefix (`"http"`, covering the secure and the
insecure scheme) unchanged, and otherwise returns the url with `"https://"`
prepended exactly once; applying the function to its own output changes
nothing. -/
theorem link_sanitize_spec (url : List Char) :
    (httpChars.isPrefixOf url = true → Link.sanitize url = url) ∧
    (httpChars.isPrefixOf url = false → Link.sanitize url = httpsSchemeChars ++ url) ∧
    Link.sanitize (Link.sanitize url) = Link.sanitize url := by
  refine ⟨fun h => by simp [Link.sanitize, h],
    fun h => by simp [Link.sanitize, h], ?_⟩
  cases h : httpChars.isPrefixOf url
  · have h1 : Link.sanitize url = httpsSchemeChars ++ url := by
      simp [Link.sanitize, h]
    rw [h1]
    simp [Link.sanitize, httpChars_prefix_of_https_append]
  · simp [Link.sanitize, h]

/-- Witness for C1 at the urls `"a"` and `"https://"`. -/
theorem link_sanitize_spec_witness :
    Link.sanitize ['a'] = httpsSchemeChars ++ ['a'] ∧
    Link.sanitize httpsSchemeChars = httpsSchemeChars ∧
    Link.sanitize (Link.sanitize ['a']) = Link.sanitize ['a'] :=
  ⟨(link_sanitize_spec ['a']).2.1 (by decide),
   (link_sanitize_spec httpsSchemeChars).1 (by decide),
   (link_sanitize_spec ['a']).2.2⟩

/-- C2 counterexample: an index of `null` is a supplied value other than
omission (`undefined`), yet `insertHTML`/`insertText` replace it with the
current length instead of using it as given — defaulting is not triggered
only by omission. -/
theorem insert_index_null_not_given :
    Editor.insertHTMLIndex JSVal.nullV 7 = JSVal.num 7 ∧
    Editor.insertTextIndex JSVal.nullV 7 = JSVal.num 7 ∧
    JSVal.nullV ≠ JSVal.undef ∧
    Editor.insertHTMLIndex JSVal.nullV 7 ≠ JSVal.nullV :=
  ⟨rfl, rfl, by decide, by decide⟩

/-- C2 amended: for `insertHTML` and `insertText` the insertion index
defaults to the current `getLength()` when the index argument is omitted
(`undefined`) or is any other falsy value except the literal `0` (`null`,
`NaN`, the empty string, `false`); the literal index `0` and every truthy
index are used as given. -/
theorem insert_index_defaulting (len n : Int) (s : List Char) :
    Editor.insertHTMLIndex JSVal.undef len = JSVal.num len ∧
    Editor.insertTextIndex JSVal.undef len = JSVal.num len ∧
    Editor.insertHTMLIndex (JSVal.num 0) len = JSVal.num 0 ∧
    Editor.insertTextIndex (JSVal.num 0) len = JSVal.num 0 ∧
    Editor.insertHTMLIndex JSVal.nullV len = JSVal.num len ∧
    Editor.insertHTMLIndex JSVal.nan len = JSVal.num len ∧
    Editor.insertHTMLIndex (JSVal.str []) len = JSVal.num len ∧
    Editor.insertHTMLIndex (JSVal.boolV false) len = JSVal.num len ∧
    (n ≠ 0 → Editor.insertHTMLIndex (JSVal.num n) len = JSVal.num n) ∧
    (n ≠ 0 → Editor.insertTextIndex (JSVal.num n) len = JSVal.num n) ∧
    (s ≠ [] → Editor.insertHTMLIndex (JSVal.str s) len = JSVal.str s) ∧
    Editor.insertHTMLIndex (JSVal.boolV true) len = JSVal.boolV true := by
  refine ⟨rfl, rfl, rfl, rfl, rfl, rfl, rfl, rfl, ?_, ?_, ?_, rfl⟩
  · intro h
    simp [Editor.insertHTMLIndex, Editor.resolveInsertIndex, jsTruthy, jsStrictEqZero, h]
  · intro h
    simp [Editor.insertTextIndex, Editor.resolveInsertIndex, jsTruthy, jsStrictEqZero, h]
  · intro h
    simp [Editor.insertHTMLIndex, Editor.resolveInsertIndex, jsTruthy, jsStrictEqZero, h]

/-- Witness for C2 (amended) at length `5`, number index `3`, string index
`"a"` and omitted index. -/
theorem insert_index_defaulting_witness :
    Editor.insertHTMLIndex (JSVal.num 3) 5 = JSVal.num 3 ∧
    Editor.insertHTMLIndex (JSVal.str ['a']) 5 = JSVal.str ['a'] ∧
    Editor.insertHTMLIndex JSVal.undef 5 = JSVal.num 5 := by
  obtain ⟨h1, h2, h3, h4, h5, h6, h7, h8, h9, h10, h11, h12⟩ :=
    insert_index_defaulting 5 3 ['a']
  exact ⟨h9 (by decide), h11 (by decide), h1⟩

/-- C3: `setHTML` with a missing input does not fail: `undefined` and
`null` are coerced to the empty string handed to `quill.pasteHTML`,
exactly as for `setHTML("")`, and setting the parsed empty fragment leaves
the editable region empty (serialized content `""`). -/
theorem setHTML_nullish_as_empty (r : List HtmlNode) :
    Editor.setHTMLArg JSVal.undef = JSVal.str [] ∧
    Editor.setHTMLArg JSVal.nullV = JSVal.str [] ∧
    Editor.setHTMLArg (JSVal.str []) = JSVal.str [] ∧
    Editor.setHTMLNodes ⟨some r⟩ [] = ⟨some []⟩ ∧
    Editor.getHTML (Editor.setHTMLNodes ⟨some r⟩ []) = Except.ok [] :=
  ⟨rfl, rfl, rfl, rfl, rfl⟩

/-- C4: `getHTML` raises the lookup error exactly when the `.ql-editor`
editable sub-element cannot be located; when it is present the call
returns normally with the serialized normalized content. -/
theorem getHTML_lookup_error (st : DomState) :
    ((∃ e, Editor.getHTML st = Except.error e) ↔ st.region = none) ∧
    (∀ ns, st.region = some ns →
      Editor.getHTML st = Except.ok (renderList (normList ns))) := by
  obtain ⟨r⟩ := st
  cases r <;> simp [Editor.getHTML, Editor.getHTMLRun]

/-- Witness for C4 at a state with the sub-element missing and a state
with it present and empty. -/
theorem getHTML_lookup_error_witness :
    (∃ e, Editor.getHTML ⟨none⟩ = Except.error e) ∧
    Editor.getHTML ⟨some []⟩ = Except.ok (renderList (normList [])) :=
  ⟨(getHTML_lookup_error ⟨none⟩).1.mpr rfl,
   (getHTML_lookup_error ⟨some []⟩).2 [] rfl⟩

/-- C5: with the editable sub-element present, `getHTML` returns the
serialization of the region's content normalized so that every `<p>`
element, at any depth, carries explicit inline zero-margin and
zero-padding declarations. -/
theorem getHTML_zeroes_paragraphs (nodes : List HtmlNode) :
    Editor.getHTML ⟨some nodes⟩ = Except.ok (renderList (normList nodes)) ∧
    zeroedList (normList nodes) = true :=
  ⟨rfl, zeroedList_normList nodes⟩

/-- C6: constructing the facade rewrites the `sanitize` function of the
widget library's shared link-format class — library-global state — so the
rewrite applies to every widget instance in the process (any `inst0`,
created by this facade or not), while the constructed instance's own state
is not what carries the override. -/
theorem construct_global_link_override (lib : QuillLib) (w inst0 : WidgetInstance)
    (url : List Char) :
    ((Editor.construct lib w).1).linkClass.sanitize = Link.sanitize ∧
    instanceLinkSanitize (Editor.construct lib w).1 inst0 url = Link.sanitize url ∧
    (Editor.construct lib w).2.1 = w :=
  ⟨rfl, rfl, rfl⟩

/-- C7: one change notification from the widget produces exactly one
dispatch per registered handler, each carrying no payload, and a handler
registered via `on` gains exactly one further invocation per batch. -/
theorem textChange_dispatch (em : EmitterState) (h : Nat) :
    (Editor.dispatchTextChange em).length = em.handlers.length ∧
    (∀ inv ∈ Editor.dispatchTextChange em, inv.2 = ([] : List JSVal)) ∧
    (∀ g : Nat, List.countP (fun inv => inv.1 == g) (Editor.dispatchTextChange em) =
      List.count g em.handlers) ∧
    List.count h (Editor.onEvent em h).handlers = List.count h em.handlers + 1 := by
  refine ⟨by simp [Editor.dispatchTextChange], ?_, ?_, ?_⟩
  · intro inv hinv
    obtain ⟨g, hg, rfl⟩ := List.mem_map.mp hinv
    rfl
  · intro g
    simp only [Editor.dispatchTextChange, List.countP_map, List.count]
    rfl
  · simp [Editor.onEvent]

/-- Witness for C7 at one registered handler `3` and one batch. -/
theorem textChange_dispatch_witness :
    List.countP (fun inv => inv.1 == 3) (Editor.dispatchTextChange ⟨[3]⟩) =
      List.count 3 [3] ∧
    List.count 5 (Editor.onEvent ⟨[3]⟩ 5).handlers = List.count 5 [3] + 1 :=
  ⟨(textChange_dispatch ⟨[3]⟩ 5).2.2.1 3, (textChange_dispatch ⟨[3]⟩ 5).2.2.2⟩

/-- C8: after replacing the content with a fragment `x`, `getHTML`
retrieves `renderList (normList x)`; replacing the content again with that
retrieved HTML (whose parse is `normList x`, by the parse/serialize round
trip of the DOM) and retrieving again yields the same string — the set/get
round trip is idempotent under re-application. -/
theorem setHTML_getHTML_roundtrip_idem (r x : List HtmlNode) :
    Editor.getHTML (Editor.setHTMLNodes ⟨some r⟩ x) =
      Except.ok (renderList (normList x)) ∧
    Editor.getHTML (Editor.setHTMLNodes ⟨some r⟩ (normList x)) =
      Except.ok (renderList (normList x)) := by
  constructor
  · rfl
  · simp [Editor.getHTML, Editor.getHTMLRun, Editor.setHTMLNodes, normList_idem x]

/-- C9: deleting `len` characters at `i`, both within the current content
bounds, decreases `getLength` by exactly `len`. -/
theorem deleteText_getLength_decreases (doc : List Char) (i l : Nat)
    (h : i + l ≤ Editor.getLength doc) :
    Editor.getLength (Editor.deleteText doc i l) = Editor.getLength doc - l := by
  simp only [Editor.getLength, Editor.deleteText, List.length_append,
    List.length_take, List.length_drop]
  simp only [Editor.getLength] at h
  omega

/-- Witness for C9 on the document `"abcd"`, deleting two characters at
index one. -/
theorem deleteText_getLength_decreases_witness :
    1 + 2 ≤ Editor.getLength ['a', 'b', 'c', 'd'] ∧
    Editor.getLength (Editor.deleteText ['a', 'b', 'c', 'd'] 1 2) =
      Editor.getLength ['a', 'b', 'c', 'd'] - 2 :=
  ⟨by decide, deleteText_getLength_decreases ['a', 'b', 'c', 'd'] 1 2 (by decide)⟩

/-- C10: `getHTML` is observation-only: the margin/padding normalization
happens on the detached copy, the DOM state after the call is the state
before it, and a repeated call without intervening mutation returns the
same result. -/
theorem getHTML_observation_only (st : DomState) :
    (Editor.getHTMLRun st).2 = st ∧
    (Editor.getHTMLRun ((Editor.getHTMLRun st).2)).1 = (Editor.getHTMLRun st).1 := by
  obtain ⟨r⟩ := st
  cases r <;> exact ⟨rfl, rfl⟩

end WysiwygEditor
